import Mathlib

/-!
# llmchain: the llama.cpp binding and the completion handler

A shallow embedding of `llms/llamacpp/llama.go` (`Predict`, `Embeddings`, the
token-callback registry) and of `api/handler.go` (`completionEndpointHandler`),
followed by the properties the specification states about them.

Conventions of the embedding:

* A Go `string` is carried as the list of its Unicode code points
  (`GoString`): the texts covered are the well-formed UTF-8 ones. On such
  texts the byte-wise prefix and suffix tests of `strings.TrimPrefix` and
  `strings.HasSuffix` and the code-point-wise ones coincide, and a code point
  is what `strings.TrimRight` removes at a time.
* A Go `error` is `Option String`: `none` is `nil`, `some msg` is
  `fmt.Errorf(msg)`.
* The process-wide `callbacks` map and the sequence of calls that cross the
  cgo boundary are threaded explicitly as a `World`.
* The native library is a parameter (`Native`): whatever it computes, the Go
  code only sees a return code and the contents of the output buffer.
-/

namespace LLMChain

/-! ## Go strings -/

/-- A Go string, as the sequence of its code points. -/
abbrev GoString := List Char

/-- Go `strings.HasPrefix`. -/
def HasPrefix (s pre : GoString) : Bool := pre.isPrefixOf s

/-- Go `strings.HasSuffix`. -/
def HasSuffix (s suf : GoString) : Bool := suf.isSuffixOf s

/-- Go `strings.TrimPrefix`: `s` without the leading `pre`, or `s` itself when
`s` does not start with `pre`. -/
def TrimPrefix (s pre : GoString) : GoString :=
  if HasPrefix s pre then s.drop pre.length else s

/-- Go `strings.ContainsRune`. -/
def ContainsRune (s : GoString) (r : Char) : Bool := s.contains r

/-- Go `strings.trimRightUnicode`: the loop drops the last code point for as
long as it occurs in `cutset`. -/
def trimRightUnicode (s cutset : GoString) : GoString :=
  (s.reverse.dropWhile (fun r => ContainsRune cutset r)).reverse

/-- Go `strings.TrimRight`: `s` with all trailing code points contained in
`cutset` removed. (The single-byte and ASCII-set fast paths of the library
compute the same text as the general loop.) -/
def TrimRight (s cutset : GoString) : GoString :=
  if s = [] ∨ cutset = [] then s else trimRightUnicode s cutset

/-- Lines 129-135 of `Predict`: the three prefix strips, then the loop
`for _, s := range po.StopPrompts { res = strings.TrimRight(res, s) }`. -/
def postProcess (res text : GoString) (StopPrompts : List GoString) : GoString :=
  let res := TrimPrefix res " ".toList
  let res := TrimPrefix res text
  let res := TrimPrefix res "\n".toList
  StopPrompts.foldl (fun res s => TrimRight res s) res


/-! ## The token-callback registry (`llama.go`, lines 163-191) -/

/-- The key of the `callbacks` map: `uintptr(statePtr)`. -/
abbrev Handle := Nat

/-- A Go `func(string) bool`. -/
abbrev Callback := GoString → Bool

/-- The Go map `callbacks`: a key is present exactly when the lookup is `some`. -/
abbrev Callbacks := Handle → Option Callback

/-- The initial value `map[uintptr]func(string) bool{}`. -/
def noCallbacks : Callbacks := fun _ => none

/-- The function `setCallback`: a `nil` callback (`none`) deletes the key, any other one is
stored under the key, replacing what was there. -/
def setCallback (callbacks : Callbacks) (statePtr : Handle) (callback : Option Callback) :
    Callbacks :=
  match callback with
  | none => fun k => if k = statePtr then none else callbacks k
  | some f => fun k => if k = statePtr then some f else callbacks k

/-- The exported `tokenCallback`: run the callback stored for the handle, and
answer `true` when there is none. -/
def tokenCallback (callbacks : Callbacks) (statePtr : Handle) (token : GoString) : Bool :=
  match callbacks statePtr with
  | some callback => callback token
  | none => true

/-! ## The cgo boundary -/

/-- Go conversion of an `int` to `C.int`: the low 32 bits, read as two's
complement. -/
def C_int (n : Int) : Int := (n + 2 ^ 31) % 2 ^ 32 - 2 ^ 31

/-- An element of a `[]float32`, carried as its 32-bit pattern (the Go code
never computes with the elements; the zero value is `0`). -/
abbrev float32 := Nat

/-- The fields of `PredictOptions` that `Predict` and `Embeddings` read. `Tokens`
and the other counts are Go `int`s; the floating-point sampling fields are
forwarded to the native call unchanged and are left out. -/
structure PredictOptions where
  Seed : Int
  Threads : Int
  Tokens : Int
  TopK : Int
  Repeat : Int
  Batch : Int
  NKeep : Int
  IgnoreEOS : Bool
  F16KV : Bool
  PenalizeNL : Bool
  DebugMode : Bool
  LogitBias : GoString
  StopPrompts : List GoString
  TokenCallback : Option Callback

/-- The arguments of `C.llama_allocate_params`, as they arrive on the C side
(floating-point arguments left out). -/
structure Params where
  prompt : GoString
  seed : Int
  threads : Int
  tokens : Int
  top_k : Int
  repeat_last_n : Int
  ignore_eos : Bool
  memory_f16 : Bool
  n_batch : Int
  n_keep : Int
  antiprompt : List GoString
  antiprompt_count : Int
  penalize_nl : Bool
  logit_bias : GoString
  deriving DecidableEq

/-- A call that crosses the cgo boundary. -/
inductive NativeCall where
  | llama_allocate_params (params : Params)
  | llama_predict (params : Params) (state : Handle) (debug : Bool)
  | get_embeddings (params : Params) (state : Handle)
  | llama_free_params (params : Params)
  deriving DecidableEq

/-- The native library. `llama_predict` receives the parameter block, the model
state, the debug flag and the re-entry point `tokenCallback`; it answers with
its return code and the NUL-terminated text it left in the output buffer.
`get_embeddings` receives the parameter block, the state and the buffer, and
answers with its return code and the buffer as it left it. -/
structure Native where
  llama_predict : Params → Handle → Bool → (Handle → GoString → Bool) → Int × GoString
  get_embeddings : Params → Handle → List float32 → Int × List float32

/-- The struct `LLaMACpp`. -/
structure LLaMACpp where
  embeddings : Bool
  state : Handle

/-- Process-wide state seen by the binding: the `callbacks` map and the calls
made across the cgo boundary so far, oldest first. -/
structure World where
  callbacks : Callbacks
  calls : List NativeCall

/-- How a Go call ends: it returns, or it panics. -/
inductive GoResult (α : Type) where
  | returned (v : α)
  | panicked (msg : String)
  deriving DecidableEq

/-- The largest size in bytes the Go runtime accepts for one allocation:
`runtime.maxAlloc` on linux/amd64, where the heap has 48 address bits and a Go
`int` has 64 bits. -/
def maxAlloc : Int := 2 ^ 48

/-- Whether `make([]T, len)`, for elements of `size` bytes, panics with
"makeslice: len out of range": the length is negative, or the slice would be
larger than `maxAlloc`. -/
def makePanics (size len : Int) : Bool := decide (len < 0 ∨ maxAlloc < size * len)

/-- Lines 65-67 and 102-104: `if po.Tokens == 0 { po.Tokens = 99999999 }`. -/
def defaultTokens (po : PredictOptions) : PredictOptions :=
  if po.Tokens = 0 then { po with Tokens := 99999999 } else po

/-- Lines 78-84 and 116-122: the argument list of `C.llama_allocate_params`. -/
def allocateArgs (text : GoString) (po : PredictOptions) : Params :=
  { prompt := text
    seed := C_int po.Seed
    threads := C_int po.Threads
    tokens := C_int po.Tokens
    top_k := C_int po.TopK
    repeat_last_n := C_int po.Repeat
    ignore_eos := po.IgnoreEOS
    memory_f16 := po.F16KV
    n_batch := C_int po.Batch
    n_keep := C_int po.NKeep
    antiprompt := po.StopPrompts
    antiprompt_count := C_int po.StopPrompts.length
    penalize_nl := po.PenalizeNL
    logit_bias := po.LogitBias }

/-- Lines 97-99 and 139-141: `if po.TokenCallback != nil { setCallback(l.state, cb) }`,
with `cb` the callback itself on entry and `nil` on exit. -/
def withCallback (l : LLaMACpp) (po : PredictOptions) (cb : Option Callback) (w : World) :
    World :=
  match po.TokenCallback with
  | some _ => { w with callbacks := setCallback w.callbacks l.state cb }
  | none => w

/-- Record one call across the boundary. -/
def World.call (w : World) (c : NativeCall) : World :=
  { w with calls := w.calls ++ [c] }

/-- The method `Predict` (lines 94-144). `make([]byte, po.Tokens)` at line 105
panics on a negative length and on one above the runtime's limit, before any
native call; an allocation the runtime accepts is taken to succeed. -/
def Predict (native : Native) (l : LLaMACpp) (text : GoString) (po : PredictOptions)
    (w : World) : GoResult (GoString × Option String) × World :=
  let w := withCallback l po po.TokenCallback w
  let po := defaultTokens po
  if makePanics 1 po.Tokens then (.panicked "makeslice: len out of range", w) else
  let params := allocateArgs text po
  let w := w.call (.llama_allocate_params params)
  let (ret, out) := native.llama_predict params l.state po.DebugMode (tokenCallback w.callbacks)
  let w := w.call (.llama_predict params l.state po.DebugMode)
  if ret ≠ 0 then (.returned ([], some "inference failed"), w) else
  let res := postProcess out text po.StopPrompts
  let w := w.call (.llama_free_params params)
  let w := withCallback l po none w
  (.returned (res, none), w)

/-- The method `Embeddings` (lines 57-92). `make([]float32, po.Tokens)` at line 68
panics like the one of `Predict`, with elements of 4 bytes. -/
def Embeddings (native : Native) (l : LLaMACpp) (text : GoString) (po : PredictOptions)
    (w : World) : GoResult (List float32 × Option String) × World :=
  if !l.embeddings then (.returned ([], some "model loaded without embeddings"), w) else
  let po := defaultTokens po
  if makePanics 4 po.Tokens then (.panicked "makeslice: len out of range", w) else
  let floats : List float32 := List.replicate po.Tokens.toNat 0
  let params := allocateArgs text po
  let w := w.call (.llama_allocate_params params)
  let (ret, floats) := native.get_embeddings params l.state floats
  let w := w.call (.get_embeddings params l.state)
  if ret ≠ 0 then (.returned (floats, some "embedding inference failed"), w) else
  (.returned (floats, none), w)

/-! ## The completion handler (`handler.go`, lines 53-117) -/

/-- The struct `Choice`, as the handler builds it: `Choice{Text: s}`. -/
structure Choice where
  Text : GoString
  deriving DecidableEq

/-- The fields of `OpenAIRequest` the completion handler reads. -/
structure OpenAIRequest where
  Model : GoString

/-- The struct `OpenAIResponse`, as the handler fills it. -/
structure OpenAIResponse where
  Model : GoString
  Choices : List Choice
  Object : GoString
  deriving DecidableEq

/-- The body handed to `c.JSON`: one of the two error values with its message
(`ReqArgsErr.WithMessage`, `ModelNotExistsErr.WithMessage`), or a completion
response. An error body has no field for Choices. -/
inductive Body where
  | ReqArgsErr (message : String)
  | ModelNotExistsErr (message : String)
  | response (resp : OpenAIResponse)
  deriving DecidableEq

/-- One call `c.JSON(status, body)`. -/
structure JSON where
  status : Nat
  body : Body
  deriving DecidableEq

/-- What the handler calls and does not define: request parsing, the model
manager, option merging, prompt templating and `ComputeChoices`. The last one
runs the model, so it reads and updates a state `σ`; it is handed the rendered
prompt, the payload and the closure `fn`, and answers with `([]Choice, error)`. -/
structure Collaborators (σ LLM Payload : Type) where
  parseReq : Except String OpenAIRequest
  GetModel : GoString → Except String LLM
  MergeModelOptions : LLM → OpenAIRequest → Payload
  TemplatePromptStrings : Payload → Except String (List GoString)
  ComputeChoices : LLM → GoString → Payload → (GoString → List Choice → List Choice) →
    σ → (List Choice × Option String) × σ

/-- What one run of the handler leaves behind: the JSON it wrote, the rendered
prompts it handed to `ComputeChoices` (in call order), and the final state. -/
structure Handled (σ : Type) where
  json : JSON
  computed : List GoString
  state : σ

/-- Line 87: `fn := func(s string, c *[]Choice) { *c = append(*c, Choice{Text: s}) }`. -/
def fn (s : GoString) (c : List Choice) : List Choice := c ++ [{ Text := s }]

/-- Lines 89-102: the loop over `templatedInputs`. `result` is the slice built
so far and `computed` the prompts handed to `ComputeChoices` so far; the
answer is the error of the first failing computation, or the final `result`. -/
def computeAll {σ : Type} (compute : GoString → σ → (List Choice × Option String) × σ) :
    List GoString → List Choice → List GoString → σ →
    Except String (List Choice) × List GoString × σ
  | [], result, computed, st => (.ok result, computed, st)
  | i :: rest, result, computed, st =>
    match compute i st with
    | ((_, some err), st') => (.error err, computed ++ [i], st')
    | ((r, none), st') => computeAll compute rest (result ++ r) (computed ++ [i]) st'

/-- The closure returned by `completionEndpointHandler`. -/
def completionEndpointHandler {σ LLM Payload : Type} (env : Collaborators σ LLM Payload)
    (st : σ) : Handled σ :=
  match env.parseReq with
  | .error err => ⟨⟨400, .ReqArgsErr err⟩, [], st⟩
  | .ok input =>
    match env.GetModel input.Model with
    | .error err => ⟨⟨500, .ModelNotExistsErr err⟩, [], st⟩
    | .ok llm =>
      let payload := env.MergeModelOptions llm input
      match env.TemplatePromptStrings payload with
      | .error err => ⟨⟨500, .ModelNotExistsErr err⟩, [], st⟩
      | .ok templatedInputs =>
        match computeAll (fun i => env.ComputeChoices llm i payload fn) templatedInputs [] [] st with
        | (.error err, computed, st') => ⟨⟨500, .ModelNotExistsErr err⟩, computed, st'⟩
        | (.ok result, computed, st') =>
          ⟨⟨200, .response
            { Model := input.Model, Choices := result, Object := "text_completion".toList }⟩,
            computed, st'⟩

/-- What each rendered prompt's computation yields when the prompts are
computed one after the other, in order, from state `st`. -/
def perPrompt {σ : Type} (compute : GoString → σ → (List Choice × Option String) × σ) :
    List GoString → σ → List (List Choice × Option String)
  | [], _ => []
  | i :: rest, st => (compute i st).1 :: perPrompt compute rest (compute i st).2

/-! ## Auxiliary definitions for the statements -/

/-- What `C.llama_predict` answers in the call that `Predict` makes: its return
code and the text it left in the output buffer. -/
def predictAnswer (native : Native) (l : LLaMACpp) (text : GoString) (po : PredictOptions)
    (w : World) : Int × GoString :=
  native.llama_predict (allocateArgs text (defaultTokens po)) l.state po.DebugMode
    (tokenCallback (withCallback l po po.TokenCallback w).callbacks)

/-- The token budgets handed to `C.llama_allocate_params` in a sequence of
native calls, oldest first. -/
def allocatedBudgets : List NativeCall → List Int
  | [] => []
  | .llama_allocate_params params :: cs => params.tokens :: allocatedBudgets cs
  | _ :: cs => allocatedBudgets cs

/-- A native library that answers every call with the same return codes and
buffers. -/
def constNative (ret : Int) (out : GoString) : Native :=
  { llama_predict := fun _ _ _ _ => (ret, out)
    get_embeddings := fun _ _ floats => (ret, floats) }

/-- A process in which no callback is registered and no native call was made. -/
def freshWorld : World := { callbacks := noCallbacks, calls := [] }

/-- A `PredictOptions` value with the given token budget, stop sequences and
token callback. -/
def optionsWith (Tokens : Int) (StopPrompts : List GoString) (TokenCallback : Option Callback) :
    PredictOptions :=
  { Seed := -1, Threads := 4, Tokens := Tokens, TopK := 40, Repeat := 64, Batch := 8,
    NKeep := 64, IgnoreEOS := false, F16KV := false, PenalizeNL := false, DebugMode := false,
    LogitBias := [], StopPrompts := StopPrompts, TokenCallback := TokenCallback }

/-- The stop-trimming step as the specification words it, with `fuel` bounding
the number of copies removed: as long as the text ends with the non-empty
stop sequence `s`, that trailing copy is removed, and nothing else is. -/
def stripTrailingCopies (s : GoString) : Nat → GoString → GoString
  | 0, text => text
  | fuel + 1, text =>
    if s ≠ [] ∧ HasSuffix text s then
      stripTrailingCopies s fuel (text.take (text.length - s.length))
    else text

/-- The specification's reading of the trim of one stop sequence: the text with
the maximal number of trailing copies of `s` removed (a text of length `n`
holds at most `n` copies). -/
def trimStopSequence (text s : GoString) : GoString :=
  stripTrailingCopies s text.length text

/-- The per-prompt computation of the handler's loop, line 92:
`ComputeChoices(llm, i, payload, fn, nil)` with `payload` the merged options. -/
def Collaborators.compute {σ LLM Payload : Type} (env : Collaborators σ LLM Payload)
    (llm : LLM) (input : OpenAIRequest) : GoString → σ → (List Choice × Option String) × σ :=
  fun i => env.ComputeChoices llm i (env.MergeModelOptions llm input) fn

/-- The number of leading per-prompt results without an error: the position
of the first failing computation, when there is one. -/
def leadingSuccesses (results : List (List Choice × Option String)) : Nat :=
  (results.takeWhile (fun x => x.2.isNone)).length

/-- Collaborators for a request of model `"demo"` whose template renders the
given prompts: computing a prompt answers one Choice holding the prompt, and
fails on the prompt `"bad"`. The state counts the computations. -/
def demoCollaborators (prompts : List GoString) : Collaborators Nat Unit Unit :=
  { parseReq := .ok { Model := "demo".toList }
    GetModel := fun _ => .ok ()
    MergeModelOptions := fun _ _ => ()
    TemplatePromptStrings := fun _ => .ok prompts
    ComputeChoices := fun _ i _ f n =>
      ((f i [], if i = "bad".toList then some "boom" else none), n + 1) }

/-! ## Facts about the string operations -/

theorem HasPrefix_iff (s pre : GoString) : HasPrefix s pre = true ↔ pre <+: s := by
  simp [HasPrefix]

theorem HasSuffix_iff (s suf : GoString) : HasSuffix s suf = true ↔ suf <:+ s := by
  simp [HasSuffix]

theorem TrimPrefix_append (pre rest : GoString) : TrimPrefix (pre ++ rest) pre = rest := by
  simp [TrimPrefix, HasPrefix]

theorem TrimPrefix_of_not_isPrefix (s pre : GoString) (h : ¬ pre <+: s) :
    TrimPrefix s pre = s := by
  simp [TrimPrefix, HasPrefix, h]

theorem TrimRight_eq_rdropWhile (s cutset : GoString) :
    TrimRight s cutset = s.rdropWhile (fun r => ContainsRune cutset r) := by
  unfold TrimRight
  split_ifs with h
  · rcases h with h | h
    · subst h; simp
    · subst h
      symm
      rw [List.rdropWhile_eq_self_iff]
      intro _
      simp [ContainsRune]
  · rfl

theorem TrimRight_isPrefix (s cutset : GoString) : TrimRight s cutset <+: s := by
  rw [TrimRight_eq_rdropWhile]
  exact List.rdropWhile_prefix _ _

theorem foldl_TrimRight_isPrefix (stops : List GoString) (s : GoString) :
    stops.foldl (fun res c => TrimRight res c) s <+: s := by
  induction stops generalizing s with
  | nil => exact List.prefix_refl s
  | cons c cs ih => exact (ih (TrimRight s c)).trans (TrimRight_isPrefix s c)

/-- After one `TrimRight`, the text does not end with the (non-empty) cutset
read as a word. -/
theorem TrimRight_not_suffix (s cutset : GoString) (hc : cutset ≠ []) :
    HasSuffix (TrimRight s cutset) cutset = false := by
  rw [Bool.eq_false_iff]
  intro h
  rw [HasSuffix_iff, TrimRight_eq_rdropWhile] at h
  by_cases hne : s.rdropWhile (fun r => ContainsRune cutset r) = []
  · rw [hne] at h
    exact hc (List.suffix_nil.mp h)
  · have hlast := List.rdropWhile_last_not (fun r => ContainsRune cutset r) s hne
    obtain ⟨t, ht⟩ := h
    have : (s.rdropWhile (fun r => ContainsRune cutset r)).getLast hne = cutset.getLast hc := by
      simp only [← ht]
      rw [List.getLast_append_of_ne_nil]
    rw [this] at hlast
    apply hlast
    simp [ContainsRune, List.getLast_mem]

/-! ## Post-processing of the generated text -/

theorem postProcess_concat (raw text s : GoString) (init : List GoString) :
    postProcess raw text (init ++ [s]) = TrimRight (postProcess raw text init) s := by
  simp [postProcess, List.foldl_append]

theorem postProcess_isPrefix (raw text : GoString) (stops : List GoString) :
    postProcess raw text stops <+:
      TrimPrefix (TrimPrefix (TrimPrefix raw " ".toList) text) "\n".toList := by
  simp only [postProcess]
  exact foldl_TrimRight_isPrefix _ _

/-! ## What `Predict` returns -/

@[simp]
theorem defaultTokens_StopPrompts (po : PredictOptions) :
    (defaultTokens po).StopPrompts = po.StopPrompts := by
  unfold defaultTokens; split_ifs <;> rfl

@[simp]
theorem defaultTokens_TokenCallback (po : PredictOptions) :
    (defaultTokens po).TokenCallback = po.TokenCallback := by
  unfold defaultTokens; split_ifs <;> rfl

@[simp]
theorem defaultTokens_DebugMode (po : PredictOptions) :
    (defaultTokens po).DebugMode = po.DebugMode := by
  unfold defaultTokens; split_ifs <;> rfl

theorem defaultTokens_Tokens (po : PredictOptions) :
    (defaultTokens po).Tokens = if po.Tokens = 0 then 99999999 else po.Tokens := by
  unfold defaultTokens; split_ifs <;> rfl

/-- The buffer of `Predict` is allocated when the requested count lies
between `0` and `maxAlloc`. -/
theorem makePanics_byte_of_fits (po : PredictOptions) (h0 : 0 ≤ po.Tokens)
    (h1 : po.Tokens ≤ maxAlloc) : makePanics 1 (defaultTokens po).Tokens = false := by
  unfold maxAlloc at h1
  rw [defaultTokens_Tokens]
  unfold makePanics maxAlloc
  split_ifs <;> (simp; try omega)

/-- The buffer of `Embeddings` is allocated when the requested count lies
between `0` and `2^31 - 1`. -/
theorem makePanics_float32_of_fits (po : PredictOptions) (h0 : 0 ≤ po.Tokens)
    (h1 : po.Tokens < 2 ^ 31) : makePanics 4 (defaultTokens po).Tokens = false := by
  rw [defaultTokens_Tokens]
  unfold makePanics maxAlloc
  split_ifs <;> (simp; try omega)

/-- Outside that range the allocation of `Predict` panics. -/
theorem makePanics_byte_of_not_fits (po : PredictOptions)
    (h : po.Tokens < 0 ∨ maxAlloc < po.Tokens) :
    makePanics 1 (defaultTokens po).Tokens = true := by
  unfold maxAlloc at h
  rw [defaultTokens_Tokens]
  unfold makePanics maxAlloc
  split_ifs <;> (simp; try omega)

@[simp]
theorem withCallback_calls (l : LLaMACpp) (po : PredictOptions) (cb : Option Callback)
    (w : World) : (withCallback l po cb w).calls = w.calls := by
  unfold withCallback; split <;> rfl

/-- The value `Predict` returns when the native call fails. -/
theorem Predict_result_of_nonzero (native : Native) (l : LLaMACpp) (text : GoString)
    (po : PredictOptions) (w : World) (hTokens : 0 ≤ po.Tokens) (hAlloc : po.Tokens ≤ maxAlloc)
    (hret : (predictAnswer native l text po w).1 ≠ 0) :
    (Predict native l text po w).1 = .returned ([], some "inference failed") := by
  have hneg := makePanics_byte_of_fits po hTokens hAlloc
  simp only [predictAnswer] at hret
  simp [Predict, hneg, World.call, hret]

/-- The value `Predict` returns when the native call succeeds. -/
theorem Predict_result_of_zero (native : Native) (l : LLaMACpp) (text : GoString)
    (po : PredictOptions) (w : World) (hTokens : 0 ≤ po.Tokens) (hAlloc : po.Tokens ≤ maxAlloc)
    (hret : (predictAnswer native l text po w).1 = 0) :
    (Predict native l text po w).1 =
      .returned (postProcess (predictAnswer native l text po w).2 text po.StopPrompts, none) := by
  have hneg := makePanics_byte_of_fits po hTokens hAlloc
  simp only [predictAnswer] at hret ⊢
  simp [Predict, hneg, World.call, hret]

/-! ## C1: stop sequences at the end of the result -/

/-- C1, as stated, fails: with the stop sequences `"\n"` and `"User:"` (in this
order) and the engine output `"Hello\nUser:"`, the text `Predict` returns is
`"Hello\n"`, which ends with the first, non-empty, stop sequence. -/
theorem C1_counterexample :
    (Predict (constNative 0 "Hello\nUser:".toList) ⟨false, 1⟩ "Hi".toList
        (optionsWith 128 ["\n".toList, "User:".toList] none) freshWorld).1
      = .returned ("Hello\n".toList, none) ∧
    "\n".toList ∈ (optionsWith 128 ["\n".toList, "User:".toList] none).StopPrompts ∧
    "\n".toList ≠ [] ∧
    HasSuffix "Hello\n".toList "\n".toList = true := by
  decide

/-- C1, amended: for texts that are well-formed UTF-8 (the prompt, the engine
output and the stop sequences are sequences of code points), a token count
between `0` and `maxAlloc`, so that the output buffer is allocated, and a
native call that succeeds: `Predict` returns, and the text it returns does
not end with the last stop sequence of the list, when that one is non-empty;
in particular, with a single configured stop sequence the result does not end
with it. -/
theorem C1_result_not_ending_with_last_stop (native : Native) (l : LLaMACpp)
    (text s : GoString) (po : PredictOptions) (w : World) (hTokens : 0 ≤ po.Tokens)
    (hAlloc : po.Tokens ≤ maxAlloc) (hret : (predictAnswer native l text po w).1 = 0)
    (hlast : po.StopPrompts.getLast? = some s) (hs : s ≠ []) :
    ∃ res, (Predict native l text po w).1 = .returned (res, none) ∧ HasSuffix res s = false := by
  refine ⟨_, Predict_result_of_zero native l text po w hTokens hAlloc hret, ?_⟩
  obtain ⟨init, hinit⟩ : ∃ init, po.StopPrompts = init ++ [s] := by
    rcases List.eq_nil_or_concat po.StopPrompts with h | ⟨init, x, h⟩
    · rw [h] at hlast; simp at hlast
    · rw [h] at hlast
      simp at hlast
      exact ⟨init, by rw [h, hlast]; simp⟩
  rw [hinit, postProcess_concat]
  exact TrimRight_not_suffix _ s hs

/-- The amended C1 at the stop sequences `"\n"`, `"User:"` and the output
`"Hello\nUser:"`: the result does not end with `"User:"`. -/
theorem C1_result_not_ending_with_last_stop_witness :
    ∃ res, (Predict (constNative 0 "Hello\nUser:".toList) ⟨false, 1⟩ "Hi".toList
        (optionsWith 128 ["\n".toList, "User:".toList] none) freshWorld).1
        = .returned (res, none) ∧ HasSuffix res "User:".toList = false :=
  C1_result_not_ending_with_last_stop (constNative 0 "Hello\nUser:".toList) ⟨false, 1⟩
    "Hi".toList "User:".toList (optionsWith 128 ["\n".toList, "User:".toList] none) freshWorld
    (by decide) (by decide) (by decide) (by decide) (by decide)

/-! ## C2: the echoed prompt at the start of the result -/

/-- The post-processed text starts with the prompt only when the output, after
the strip of one leading space, starts with the prompt twice, with the prompt,
a newline and the prompt, or with a newline and the prompt. -/
theorem postProcess_not_isPrefix (raw text : GoString) (stops : List GoString)
    (h1 : HasPrefix (TrimPrefix raw " ".toList) (text ++ text) = false)
    (h2 : HasPrefix (TrimPrefix raw " ".toList) (text ++ "\n".toList ++ text) = false)
    (h3 : HasPrefix (TrimPrefix raw " ".toList) ("\n".toList ++ text) = false) :
    ¬ text <+: postProcess raw text stops := by
  intro hres
  have hpre := hres.trans (postProcess_isPrefix raw text stops)
  rw [Bool.eq_false_iff, Ne, HasPrefix_iff] at h1 h2 h3
  generalize TrimPrefix raw " ".toList = r1 at h1 h2 h3 hpre
  by_cases hp : text <+: r1
  · obtain ⟨rest, rfl⟩ := hp
    rw [TrimPrefix_append] at hpre
    by_cases hn : "\n".toList <+: rest
    · obtain ⟨rest', rfl⟩ := hn
      rw [TrimPrefix_append] at hpre
      apply h2
      rw [List.append_assoc, List.prefix_append_right_inj, List.prefix_append_right_inj]
      exact hpre
    · rw [TrimPrefix_of_not_isPrefix _ _ hn] at hpre
      apply h1
      rw [List.prefix_append_right_inj]
      exact hpre
  · rw [TrimPrefix_of_not_isPrefix _ _ hp] at hpre
    by_cases hn : "\n".toList <+: r1
    · obtain ⟨rest', rfl⟩ := hn
      rw [TrimPrefix_append] at hpre
      apply h3
      rw [List.prefix_append_right_inj]
      exact hpre
    · rw [TrimPrefix_of_not_isPrefix _ _ hn] at hpre
      exact hp hpre

/-- C2, as stated, fails: for the prompt `"Hi"` and the engine output
`" HiHi there"`, `Predict` strips one leading copy of the prompt and returns
`"Hi there"`, which begins with the prompt; a second strip changes it. -/
theorem C2_counterexample :
    (Predict (constNative 0 " HiHi there".toList) ⟨false, 1⟩ "Hi".toList
        (optionsWith 128 [] none) freshWorld).1 = .returned ("Hi there".toList, none) ∧
    HasPrefix "Hi there".toList "Hi".toList = true ∧
    TrimPrefix "Hi there".toList "Hi".toList ≠ "Hi there".toList := by
  decide

/-- C2, amended: for a token count between `0` and `maxAlloc`, so that the
output buffer is allocated: when the native call succeeds and its output, once
the single leading space is stripped, starts neither with the prompt twice,
nor with the prompt, a newline and the prompt, nor with a newline and the
prompt, then `Predict` returns, the text it returns does not begin with the
prompt, and stripping the prompt from it again yields the same text. -/
theorem C2_result_not_beginning_with_prompt (native : Native) (l : LLaMACpp)
    (text : GoString) (po : PredictOptions) (w : World) (hTokens : 0 ≤ po.Tokens)
    (hAlloc : po.Tokens ≤ maxAlloc) (hret : (predictAnswer native l text po w).1 = 0)
    (h1 : HasPrefix (TrimPrefix (predictAnswer native l text po w).2 " ".toList)
      (text ++ text) = false)
    (h2 : HasPrefix (TrimPrefix (predictAnswer native l text po w).2 " ".toList)
      (text ++ "\n".toList ++ text) = false)
    (h3 : HasPrefix (TrimPrefix (predictAnswer native l text po w).2 " ".toList)
      ("\n".toList ++ text) = false) :
    ∃ res, (Predict native l text po w).1 = .returned (res, none) ∧
      HasPrefix res text = false ∧ TrimPrefix res text = res := by
  refine ⟨_, Predict_result_of_zero native l text po w hTokens hAlloc hret, ?_⟩
  have h := postProcess_not_isPrefix _ text po.StopPrompts h1 h2 h3
  refine ⟨?_, TrimPrefix_of_not_isPrefix _ _ h⟩
  rw [Bool.eq_false_iff, Ne, HasPrefix_iff]
  exact h

/-- The amended C2 at the prompt `"Hi"` and the output `" Hi there"`. -/
theorem C2_result_not_beginning_with_prompt_witness :
    ∃ res, (Predict (constNative 0 " Hi there".toList) ⟨false, 1⟩ "Hi".toList
        (optionsWith 128 [] none) freshWorld).1 = .returned (res, none) ∧
      HasPrefix res "Hi".toList = false ∧ TrimPrefix res "Hi".toList = res :=
  C2_result_not_beginning_with_prompt (constNative 0 " Hi there".toList) ⟨false, 1⟩
    "Hi".toList (optionsWith 128 [] none) freshWorld
    (by decide) (by decide) (by decide) (by decide) (by decide) (by decide)

/-! ## C8: what the stop-trimming step removes -/

/-- C8, at the failing input: with the stop word `"llama"` (the one `Call`
configures) and the engine output `"The animal"`, which does not end with
`"llama"`, the specification's trim leaves the text unchanged, while
`strings.TrimRight` reads the stop word as a set of characters and removes the
trailing `m`, `a`, `l`: `Predict` returns `"The ani"`. -/
theorem C8_TrimRight_strips_characters :
    HasSuffix "The animal".toList "llama".toList = false ∧
    trimStopSequence "The animal".toList "llama".toList = "The animal".toList ∧
    TrimRight "The animal".toList "llama".toList = "The ani".toList ∧
    (Predict (constNative 0 "The animal".toList) ⟨false, 1⟩ "Hi".toList
        (optionsWith 128 ["llama".toList] none) freshWorld).1
      = .returned ("The ani".toList, none) := by
  decide

/-! ## C3: the registry entry after `Predict` -/

/-- C3, at the failing input: `Predict` is given a token callback and the
native call answers `1`. `Predict` returns the error, and the registry still
holds an entry for the model's handle; on the same input with a native call
that answers `0` the entry is gone. -/
theorem C3_entry_left_on_error :
    (Predict (constNative 1 []) ⟨false, 7⟩ "Hi".toList
        (optionsWith 128 [] (some (fun _ => true))) freshWorld).1
      = .returned ([], some "inference failed") ∧
    ((Predict (constNative 1 []) ⟨false, 7⟩ "Hi".toList
        (optionsWith 128 [] (some (fun _ => true))) freshWorld).2.callbacks 7).isSome = true ∧
    ((Predict (constNative 0 []) ⟨false, 7⟩ "Hi".toList
        (optionsWith 128 [] (some (fun _ => true))) freshWorld).2.callbacks 7).isSome = false := by
  decide

/-! ## C4: the token budget that crosses the boundary -/

theorem allocatedBudgets_append (xs ys : List NativeCall) :
    allocatedBudgets (xs ++ ys) = allocatedBudgets xs ++ allocatedBudgets ys := by
  induction xs with
  | nil => rfl
  | cons c cs ih => cases c <;> simp [allocatedBudgets, ih]

theorem C_int_of_fits (n : Int) (h0 : 0 ≤ n) (h1 : n < 2 ^ 31) : C_int n = n := by
  unfold C_int
  norm_num at h1 ⊢
  omega

/-- C4, as stated, fails: a requested token count of `4294967296` (2^32) is
not zero, `make([]byte, po.Tokens)` accepts it, and the conversion to `C.int`
hands `0` to `llama_allocate_params`. -/
theorem C4_counterexample :
    (optionsWith 4294967296 [] none).Tokens ≠ 0 ∧
    allocatedBudgets (Predict (constNative 0 "ok".toList) ⟨true, 1⟩ "Hi".toList
      (optionsWith 4294967296 [] none) freshWorld).2.calls = [0] := by
  decide

/-- C4, amended: for a requested token count between `0` and `2^31 - 1`, the
one budget `Predict` hands to `llama_allocate_params`, and the one `Embeddings`
hands to it on a model with embeddings enabled, is `99999999` when the request
is `0` and the requested count otherwise; it is never zero. -/
theorem C4_budget_passed (native : Native) (l : LLaMACpp) (text : GoString)
    (po : PredictOptions) (w : World) (h0 : 0 ≤ po.Tokens) (h1 : po.Tokens < 2 ^ 31) :
    allocatedBudgets (Predict native l text po w).2.calls
      = allocatedBudgets w.calls ++ [if po.Tokens = 0 then 99999999 else po.Tokens] ∧
    (l.embeddings = true →
      allocatedBudgets (Embeddings native l text po w).2.calls
        = allocatedBudgets w.calls ++ [if po.Tokens = 0 then 99999999 else po.Tokens]) ∧
    (if po.Tokens = 0 then (99999999 : Int) else po.Tokens) ≠ 0 := by
  have hbyte := makePanics_byte_of_fits po h0 (by unfold maxAlloc; omega)
  have hfloat := makePanics_float32_of_fits po h0 h1
  have hfit : C_int (defaultTokens po).Tokens = if po.Tokens = 0 then 99999999 else po.Tokens := by
    rw [defaultTokens_Tokens]
    apply C_int_of_fits
    · split_ifs <;> omega
    · split_ifs
      · norm_num
      · exact h1
  have hne : (if po.Tokens = 0 then (99999999 : Int) else po.Tokens) ≠ 0 := by
    split_ifs with h
    · norm_num
    · exact h
  refine ⟨?_, ?_, hne⟩
  · generalize (if po.Tokens = 0 then (99999999 : Int) else po.Tokens) = budget at hfit ⊢
    simp only [Predict, hbyte, Bool.false_eq_true, if_false]
    split_ifs <;>
      simp [World.call, allocatedBudgets_append, allocatedBudgets, allocateArgs, hfit]
  · intro he
    generalize (if po.Tokens = 0 then (99999999 : Int) else po.Tokens) = budget at hfit ⊢
    simp only [Embeddings, he, hfloat, if_false, Bool.not_true, Bool.false_eq_true]
    split_ifs <;>
      simp [World.call, allocatedBudgets_append, allocatedBudgets, allocateArgs, hfit]

/-- The amended C4 at a requested token count of `0`. -/
theorem C4_budget_passed_witness :
    allocatedBudgets (Predict (constNative 0 "ok".toList) ⟨true, 1⟩ "Hi".toList
      (optionsWith 0 [] none) freshWorld).2.calls
      = allocatedBudgets freshWorld.calls ++ [if (0 : Int) = 0 then 99999999 else 0] :=
  (C4_budget_passed (constNative 0 "ok".toList) ⟨true, 1⟩ "Hi".toList
    (optionsWith 0 [] none) freshWorld (by decide) (by decide)).1

/-! ## C5: `Embeddings` on a model loaded without embeddings -/

/-- C5: on a model whose `embeddings` flag is false, `Embeddings` returns the
empty vector (length 0) together with an error, whatever the text and the
options, and no call crosses the native boundary: the sequence of native
calls, like the rest of the process state, is what it was before. -/
theorem C5_Embeddings_disabled (native : Native) (l : LLaMACpp) (text : GoString)
    (po : PredictOptions) (w : World) (h : l.embeddings = false) :
    (∃ floats err, (Embeddings native l text po w).1 = .returned (floats, some err) ∧
      floats.length = 0) ∧
    (Embeddings native l text po w).2.calls = w.calls ∧
    (Embeddings native l text po w).2 = w := by
  simp [Embeddings, h]

/-- C5 at a model loaded without embeddings, in a fresh process. -/
theorem C5_Embeddings_disabled_witness :
    (∃ floats err, (Embeddings (constNative 0 []) ⟨false, 1⟩ "x".toList (optionsWith 0 [] none)
      freshWorld).1 = .returned (floats, some err) ∧ floats.length = 0) ∧
    (Embeddings (constNative 0 []) ⟨false, 1⟩ "x".toList (optionsWith 0 [] none)
      freshWorld).2.calls = freshWorld.calls :=
  have h := C5_Embeddings_disabled (constNative 0 []) ⟨false, 1⟩ "x".toList
    (optionsWith 0 [] none) freshWorld rfl
  ⟨h.1, h.2.1⟩

/-! ## C9: the callback registry -/

/-- C9: after `setCallback(h, f)` and then `setCallback(h, g)` with non-nil `f`
and `g`, the entry under `h` is `g` and `tokenCallback(h, t)` is `g(t)`; the
entries of every other handle, and what `tokenCallback` answers for them, are
unchanged; and for a handle without an entry `tokenCallback` answers `true`. -/
theorem C9_last_writer_wins (callbacks : Callbacks) (h : Handle) (f g : Callback)
    (t : GoString) :
    setCallback (setCallback callbacks h (some f)) h (some g) h = some g ∧
    tokenCallback (setCallback (setCallback callbacks h (some f)) h (some g)) h t = g t ∧
    (∀ h', h' ≠ h →
      setCallback (setCallback callbacks h (some f)) h (some g) h' = callbacks h' ∧
      tokenCallback (setCallback (setCallback callbacks h (some f)) h (some g)) h' t
        = tokenCallback callbacks h' t) ∧
    (∀ h', callbacks h' = none → tokenCallback callbacks h' t = true) := by
  refine ⟨by simp [setCallback], by simp [setCallback, tokenCallback], ?_, ?_⟩
  · intro h' hne
    simp [setCallback, tokenCallback, hne]
  · intro h' hnone
    simp [tokenCallback, hnone]

/-- C9 at the handle `1`, a first callback that continues and a second one that
stops; the handle `2` has no entry. -/
theorem C9_last_writer_wins_witness :
    tokenCallback (setCallback (setCallback noCallbacks 1 (some (fun _ => true))) 1
        (some (fun _ => false))) 1 "tok".toList = false ∧
    tokenCallback (setCallback (setCallback noCallbacks 1 (some (fun _ => true))) 1
        (some (fun _ => false))) 2 "tok".toList = tokenCallback noCallbacks 2 "tok".toList ∧
    tokenCallback noCallbacks 2 "tok".toList = true :=
  have h := C9_last_writer_wins noCallbacks 1 (fun _ => true) (fun _ => false) "tok".toList
  ⟨h.2.1, (h.2.2.1 2 (by decide)).2, h.2.2.2 2 rfl⟩

/-! ## C10: when `Predict` returns an error -/

/-- C10: for every prompt and every option list, either the allocation of the
output buffer panics (the token count is negative or above `maxAlloc`), and
then no native call is made, or `Predict` reaches `llama_predict` and returns;
it then returns an error exactly when `llama_predict` answers a non-zero code;
in that case the text is empty; and when the code is zero it returns the
post-processed output with a nil error. -/
theorem C10_error_iff_native_nonzero (native : Native) (l : LLaMACpp) (text : GoString)
    (po : PredictOptions) (w : World) :
    (po.Tokens < 0 ∨ maxAlloc < po.Tokens →
      (∃ msg, (Predict native l text po w).1 = .panicked msg) ∧
      (Predict native l text po w).2.calls = w.calls) ∧
    (0 ≤ po.Tokens → po.Tokens ≤ maxAlloc →
      ((∃ res err, (Predict native l text po w).1 = .returned (res, some err)) ↔
        (predictAnswer native l text po w).1 ≠ 0) ∧
      ((predictAnswer native l text po w).1 ≠ 0 →
        (Predict native l text po w).1 = .returned ([], some "inference failed")) ∧
      ((predictAnswer native l text po w).1 = 0 →
        (Predict native l text po w).1 =
          .returned (postProcess (predictAnswer native l text po w).2 text po.StopPrompts,
            none))) := by
  refine ⟨?_, ?_⟩
  · intro hout
    have hp := makePanics_byte_of_not_fits po hout
    simp [Predict, hp]
  · intro hTokens hAlloc
    refine ⟨⟨?_, ?_⟩, Predict_result_of_nonzero native l text po w hTokens hAlloc,
      Predict_result_of_zero native l text po w hTokens hAlloc⟩
    · rintro ⟨res, err, hres⟩ hzero
      rw [Predict_result_of_zero native l text po w hTokens hAlloc hzero] at hres
      simp at hres
    · intro hne
      exact ⟨_, _, Predict_result_of_nonzero native l text po w hTokens hAlloc hne⟩

/-- C10 at a native call that answers `3`, at one that answers `0`, and at a
token count of `2^62`, for which the allocation panics. -/
theorem C10_error_iff_native_nonzero_witness :
    (Predict (constNative 3 "junk".toList) ⟨false, 1⟩ "Hi".toList (optionsWith 0 [] none)
      freshWorld).1 = .returned ([], some "inference failed") ∧
    (Predict (constNative 0 " Hi there".toList) ⟨false, 1⟩ "Hi".toList (optionsWith 0 [] none)
      freshWorld).1
      = .returned (postProcess (predictAnswer (constNative 0 " Hi there".toList) ⟨false, 1⟩
          "Hi".toList (optionsWith 0 [] none) freshWorld).2 "Hi".toList
          (optionsWith 0 [] none).StopPrompts, none) ∧
    (Predict (constNative 0 "ok".toList) ⟨false, 1⟩ "Hi".toList
      (optionsWith 4611686018427387904 [] none) freshWorld).2.calls = freshWorld.calls :=
  ⟨((C10_error_iff_native_nonzero (constNative 3 "junk".toList) ⟨false, 1⟩ "Hi".toList
      (optionsWith 0 [] none) freshWorld).2 (by decide) (by decide)).2.1 (by decide),
   ((C10_error_iff_native_nonzero (constNative 0 " Hi there".toList) ⟨false, 1⟩ "Hi".toList
      (optionsWith 0 [] none) freshWorld).2 (by decide) (by decide)).2.2 (by decide),
   ((C10_error_iff_native_nonzero (constNative 0 "ok".toList) ⟨false, 1⟩ "Hi".toList
      (optionsWith 4611686018427387904 [] none) freshWorld).1 (Or.inr (by decide))).2⟩

/-! ## C6 and C7: the loop of the completion handler -/

theorem computeAll_of_all_succeed {σ : Type}
    (compute : GoString → σ → (List Choice × Option String) × σ) (inputs : List GoString)
    (result : List Choice) (computed : List GoString) (st : σ)
    (h : ∀ x ∈ perPrompt compute inputs st, x.2 = none) :
    (computeAll compute inputs result computed st).1
      = .ok (result ++ ((perPrompt compute inputs st).map Prod.fst).flatten) ∧
    (computeAll compute inputs result computed st).2.1 = computed ++ inputs := by
  induction inputs generalizing result computed st with
  | nil => simp [computeAll, perPrompt]
  | cons i rest ih =>
    rcases hc : compute i st with ⟨⟨r, e⟩, st'⟩
    simp only [perPrompt, hc, List.mem_cons, forall_eq_or_imp] at h
    obtain ⟨he, hrest⟩ := h
    subst he
    have := ih (result ++ r) (computed ++ [i]) st' hrest
    simp [computeAll, perPrompt, hc, this]

theorem computeAll_of_some_fail {σ : Type}
    (compute : GoString → σ → (List Choice × Option String) × σ) (inputs : List GoString)
    (result : List Choice) (computed : List GoString) (st : σ)
    (h : ∃ x ∈ perPrompt compute inputs st, x.2 ≠ none) :
    ∃ r err,
      (perPrompt compute inputs st)[leadingSuccesses (perPrompt compute inputs st)]?
        = some (r, some err) ∧
      (computeAll compute inputs result computed st).1 = .error err ∧
      (computeAll compute inputs result computed st).2.1
        = computed ++ inputs.take (leadingSuccesses (perPrompt compute inputs st) + 1) := by
  induction inputs generalizing result computed st with
  | nil => simp [perPrompt] at h
  | cons i rest ih =>
    rcases hc : compute i st with ⟨⟨r, e⟩, st'⟩
    cases e with
    | some err =>
      exact ⟨r, err, by simp [perPrompt, hc, leadingSuccesses, computeAll]⟩
    | none =>
      have hrest : ∃ x ∈ perPrompt compute rest st', x.2 ≠ none := by
        simpa [perPrompt, hc] using h
      obtain ⟨r', err, h1, h2, h3⟩ := ih (result ++ r) (computed ++ [i]) st' hrest
      refine ⟨r', err, ?_, ?_, ?_⟩
      · simpa [perPrompt, hc, leadingSuccesses] using h1
      · simpa [computeAll, hc] using h2
      · simpa [computeAll, perPrompt, hc, leadingSuccesses] using h3

theorem perPrompt_length {σ : Type}
    (compute : GoString → σ → (List Choice × Option String) × σ) (inputs : List GoString)
    (st : σ) : (perPrompt compute inputs st).length = inputs.length := by
  induction inputs generalizing st with
  | nil => rfl
  | cons i rest ih => simp [perPrompt, ih]

/-- The handler, once the request is parsed, the model found and the prompt
rendered: what it writes is decided by the loop. -/
theorem completionEndpointHandler_of_rendered {σ LLM Payload : Type}
    (env : Collaborators σ LLM Payload) (st : σ) (input : OpenAIRequest) (llm : LLM)
    (templatedInputs : List GoString) (hparse : env.parseReq = .ok input)
    (hmodel : env.GetModel input.Model = .ok llm)
    (htempl : env.TemplatePromptStrings (env.MergeModelOptions llm input) = .ok templatedInputs) :
    completionEndpointHandler env st =
      match computeAll (env.compute llm input) templatedInputs [] [] st with
      | (.error err, computed, st') => ⟨⟨500, .ModelNotExistsErr err⟩, computed, st'⟩
      | (.ok result, computed, st') =>
        ⟨⟨200, .response
          { Model := input.Model, Choices := result, Object := "text_completion".toList }⟩,
          computed, st'⟩ := by
  simp only [completionEndpointHandler, hparse, hmodel, htempl]
  rfl

/-- C6: in the completion handler, with `results` what the rendered prompts'
computations yield in order: if some computation fails, the first failing one
(at position `leadingSuccesses results`) decides the response, which is the
error response with that computation's error (a body without Choices), and
the prompts handed to `ComputeChoices` are exactly those up to and including
the failing one; and a response with Choices is written only when every
computation succeeds. -/
theorem C6_abort_on_first_error {σ LLM Payload : Type}
    (env : Collaborators σ LLM Payload) (st : σ) (input : OpenAIRequest) (llm : LLM)
    (templatedInputs : List GoString) (hparse : env.parseReq = .ok input)
    (hmodel : env.GetModel input.Model = .ok llm)
    (htempl : env.TemplatePromptStrings (env.MergeModelOptions llm input) = .ok templatedInputs) :
    ((∃ x ∈ perPrompt (env.compute llm input) templatedInputs st, x.2 ≠ none) →
      ∃ r err,
        (perPrompt (env.compute llm input) templatedInputs st)[leadingSuccesses
          (perPrompt (env.compute llm input) templatedInputs st)]? = some (r, some err) ∧
        (completionEndpointHandler env st).json = ⟨500, .ModelNotExistsErr err⟩ ∧
        (completionEndpointHandler env st).computed = templatedInputs.take
          (leadingSuccesses (perPrompt (env.compute llm input) templatedInputs st) + 1)) ∧
    ((∃ resp, (completionEndpointHandler env st).json.body = .response resp) →
      ∀ x ∈ perPrompt (env.compute llm input) templatedInputs st, x.2 = none) := by
  have hfail : (∃ x ∈ perPrompt (env.compute llm input) templatedInputs st, x.2 ≠ none) →
      ∃ r err,
        (perPrompt (env.compute llm input) templatedInputs st)[leadingSuccesses
          (perPrompt (env.compute llm input) templatedInputs st)]? = some (r, some err) ∧
        (completionEndpointHandler env st).json = ⟨500, .ModelNotExistsErr err⟩ ∧
        (completionEndpointHandler env st).computed = templatedInputs.take
          (leadingSuccesses (perPrompt (env.compute llm input) templatedInputs st) + 1) := by
    intro h
    obtain ⟨r, err, h1, h2, h3⟩ :=
      computeAll_of_some_fail (env.compute llm input) templatedInputs [] [] st h
    refine ⟨r, err, h1, ?_, ?_⟩ <;>
      rw [completionEndpointHandler_of_rendered env st input llm templatedInputs hparse hmodel
        htempl] <;>
      rcases hc : computeAll (env.compute llm input) templatedInputs [] [] st with
        ⟨out, computed, st'⟩ <;>
      rw [hc] at h2 h3 <;> simp only at h2 h3 <;> subst h2 <;> simp [h3]
  refine ⟨hfail, ?_⟩
  rintro ⟨resp, hresp⟩
  by_contra hall
  push_neg at hall
  obtain ⟨r, err, -, hjson, -⟩ := hfail hall
  rw [hjson] at hresp
  simp at hresp

/-- C6 at the rendered prompts `"a"`, `"bad"`, `"c"`, the second of which fails. -/
theorem C6_abort_on_first_error_witness :
    ∃ r err,
      (perPrompt ((demoCollaborators ["a".toList, "bad".toList, "c".toList]).compute ()
          { Model := "demo".toList }) ["a".toList, "bad".toList, "c".toList] 0)[leadingSuccesses
        (perPrompt ((demoCollaborators ["a".toList, "bad".toList, "c".toList]).compute ()
          { Model := "demo".toList }) ["a".toList, "bad".toList, "c".toList] 0)]?
        = some (r, some err) ∧
      (completionEndpointHandler (demoCollaborators ["a".toList, "bad".toList, "c".toList])
        0).json = ⟨500, .ModelNotExistsErr err⟩ ∧
      (completionEndpointHandler (demoCollaborators ["a".toList, "bad".toList, "c".toList])
        0).computed = ["a".toList, "bad".toList, "c".toList].take
          (leadingSuccesses (perPrompt
            ((demoCollaborators ["a".toList, "bad".toList, "c".toList]).compute ()
              { Model := "demo".toList }) ["a".toList, "bad".toList, "c".toList] 0) + 1) :=
  (C6_abort_on_first_error (demoCollaborators ["a".toList, "bad".toList, "c".toList]) 0
    { Model := "demo".toList } () ["a".toList, "bad".toList, "c".toList] rfl rfl rfl).1
    (by decide)

/-- C7: in the completion handler, when every rendered prompt's computation
succeeds, the response is the success response whose Choices are the
per-prompt Choice lists concatenated in rendered-prompt order; their number
is the sum of the per-prompt counts, and every rendered prompt was computed,
in order. -/
theorem C7_choices_in_prompt_order {σ LLM Payload : Type}
    (env : Collaborators σ LLM Payload) (st : σ) (input : OpenAIRequest) (llm : LLM)
    (templatedInputs : List GoString) (hparse : env.parseReq = .ok input)
    (hmodel : env.GetModel input.Model = .ok llm)
    (htempl : env.TemplatePromptStrings (env.MergeModelOptions llm input) = .ok templatedInputs)
    (hall : ∀ x ∈ perPrompt (env.compute llm input) templatedInputs st, x.2 = none) :
    (completionEndpointHandler env st).json = ⟨200, .response
      { Model := input.Model
        Choices := ((perPrompt (env.compute llm input) templatedInputs st).map Prod.fst).flatten
        Object := "text_completion".toList }⟩ ∧
    (((perPrompt (env.compute llm input) templatedInputs st).map Prod.fst).flatten).length
      = ((perPrompt (env.compute llm input) templatedInputs st).map
          (fun x => x.1.length)).sum ∧
    (perPrompt (env.compute llm input) templatedInputs st).length = templatedInputs.length ∧
    (completionEndpointHandler env st).computed = templatedInputs := by
  obtain ⟨h1, h2⟩ :=
    computeAll_of_all_succeed (env.compute llm input) templatedInputs [] [] st hall
  refine ⟨?_, ?_, ?_, ?_⟩
  · rw [completionEndpointHandler_of_rendered env st input llm templatedInputs hparse hmodel
      htempl]
    rcases hc : computeAll (env.compute llm input) templatedInputs [] [] st with
      ⟨out, computed, st'⟩
    rw [hc] at h1
    simp only at h1
    subst h1
    simp
  · simp [List.length_flatten, Function.comp_def]
  · exact perPrompt_length _ _ _
  · rw [completionEndpointHandler_of_rendered env st input llm templatedInputs hparse hmodel
      htempl]
    rcases hc : computeAll (env.compute llm input) templatedInputs [] [] st with
      ⟨out, computed, st'⟩
    rw [hc] at h1 h2
    simp only at h1 h2
    subst h1
    simp [h2]

/-- C7 at the rendered prompts `"a"`, `"b"`, both of which succeed. -/
theorem C7_choices_in_prompt_order_witness :
    (completionEndpointHandler (demoCollaborators ["a".toList, "b".toList]) 0).json
      = ⟨200, .response
        { Model := "demo".toList
          Choices := ((perPrompt ((demoCollaborators ["a".toList, "b".toList]).compute ()
            { Model := "demo".toList }) ["a".toList, "b".toList] 0).map Prod.fst).flatten
          Object := "text_completion".toList }⟩ :=
  (C7_choices_in_prompt_order (demoCollaborators ["a".toList, "b".toList]) 0
    { Model := "demo".toList } () ["a".toList, "b".toList] rfl rfl rfl (by decide)).1

end LLMChain
